import Mathlib

/-!
Verification of the attention-tracking core: a shallow embedding of the
multi-camera orchestrator (`multi_camera_streamer.py`), the single-stream
service (`stream.py`), the robust camera acquisition protocol
(`robust_camera_manager.py`) and the processing pipeline (`pipeline.py`),
together with models of the collaborating modules that are referenced from
those files but whose sources are not part of the repository snapshot
(`isolated_camera_processor.py`, `head_pose.py`, `tracker.py`, `utils.py`,
`video_recorder.py`); those models follow the specification's wording and
are marked `Modelled from the spec` in their doc comments.

Conventions: machine angles are rationals, frames are abstract values,
per-frame attention counts are the four natural-number bands of the
`stats` dictionaries of the code.  Stateful Python methods become pure
functions from an explicit state to a state (plus results), and threaded
control flow becomes either an event trace (orchestrator registry) or an
explicit step list with a lock-ownership semantics (registry lock).
-/

namespace AttentionApp

/-- Per-frame attention counts: the `{"green", "yellow", "red", "total"}`
dictionary that the pipeline publishes and the orchestrator aggregates
(`multi_camera_streamer.py` line 22). -/
structure Stats where
  green : Nat
  yellow : Nat
  red : Nat
  total : Nat
deriving DecidableEq, Repr

/-- The all-zero counts, the initial value of `aggregated_stats`
(`multi_camera_streamer.py` line 22). -/
def Stats.zero : Stats := ⟨0, 0, 0, 0⟩

/-- Band-wise sum of two counts. -/
def Stats.add (a b : Stats) : Stats :=
  ⟨a.green + b.green, a.yellow + b.yellow, a.red + b.red, a.total + b.total⟩

/-! ## C1: aggregated statistics of the multi-camera orchestrator

`MultiCameraStreamer` keeps one camera session per camera id; each session
records the latest stats its loop published (`latest_stats`, `none` before
the first published frame).  `_update_aggregated_stats` (lines 280-283)
overwrites the cached `aggregated_stats` field with the isolated manager's
aggregate, and is called from `_camera_stream_loop` (line 261) each time a
frame is published.  `get_aggregated_stats` (lines 303-306) returns a copy
of the cached field.  `stop_camera_stream` removes the session without
touching the cache.  The trace semantics below has one event per such
occurrence. -/

/-- One camera session as the aggregation sees it: its id and the latest
stats snapshot its loop has published (`none` before the first frame). -/
structure CamSession where
  camId : Nat
  latestStats : Option Stats
deriving DecidableEq, Repr

/-- Orchestrator state for the aggregation trace: the registry of sessions
(kept in lock step with the isolated manager's processors by
`start_camera_stream` / `stop_camera_stream`) and the cached
`aggregated_stats` dictionary of `MultiCameraStreamer.__init__` (line 22). -/
structure OrchStats where
  sessions : List CamSession
  aggregated_stats : Stats
deriving DecidableEq, Repr

/-- Modelled from the spec: `IsolatedMultiCameraManager.get_aggregated_stats`
(`services/isolated_camera_processor.py`, not in the repository snapshot).
Per sections 4.5 and 8 of the spec it "sums per-band counts across all
currently active sessions' latest stats; a session with no frame yet
contributes zero, not an error". -/
def isolatedAggregate (sessions : List CamSession) : Stats :=
  sessions.foldr (fun c acc => Stats.add (c.latestStats.getD Stats.zero) acc) Stats.zero

/-- Does the registry hold a session for this camera id? -/
def hasSession (sessions : List CamSession) (camId : Nat) : Bool :=
  sessions.any (fun c => c.camId == camId)

/-- The registry events that touch the aggregation state: a successful
`start_camera_stream` (session inserted with no published frame yet, line
152), a publication tick of `_camera_stream_loop` (lines 253-261: the
session's `latest_stats` is overwritten and `_update_aggregated_stats`
refreshes the cache), and `stop_camera_stream` (lines 169-196: the session
is removed; the cache is not touched). -/
inductive OrchEvent where
  | start (camId : Nat)
  | publish (camId : Nat) (stats : Stats)
  | stop (camId : Nat)
deriving DecidableEq, Repr

/-- One event of the aggregation trace applied to the orchestrator state. -/
def orchStep (s : OrchStats) (e : OrchEvent) : OrchStats :=
  match e with
  | OrchEvent.start camId =>
      if hasSession s.sessions camId then s
      else { s with sessions := s.sessions ++ [⟨camId, none⟩] }
  | OrchEvent.publish camId st =>
      if hasSession s.sessions camId then
        let sessions := s.sessions.map
          (fun c => if c.camId == camId then { c with latestStats := some st } else c)
        { sessions := sessions, aggregated_stats := isolatedAggregate sessions }
      else s
  | OrchEvent.stop camId =>
      { s with sessions := s.sessions.filter (fun c => !(c.camId == camId)) }

/-- Run a trace of registry events from the freshly constructed streamer
(no sessions, all-zero cached aggregate, line 20-22 of
`multi_camera_streamer.py`). -/
def runOrch (evs : List OrchEvent) : OrchStats :=
  evs.foldl orchStep ⟨[], Stats.zero⟩

/-- `MultiCameraStreamer.get_aggregated_stats` (lines 303-306): returns a
copy of the cached `aggregated_stats` field. -/
def get_aggregated_stats (s : OrchStats) : Stats :=
  s.aggregated_stats

/-! ## C2: the registry lock during `start_camera_stream`

`start_camera_stream` (lines 103-154) is one `with self.stream_lock:` block
whose body contains the registry check, the camera acquisition
(`_initialize_camera_with_timeout`, the slow operation with a 15 s
timeout), processor creation, thread start and the registry insertion.  We
embed the method as the ordered list of these steps and give a
lock-ownership semantics to interleavings of two calls. -/

/-- The successive steps of `start_camera_stream`, in source order:
line 103 takes the lock, line 104 checks the registry, line 112 runs the
acquisition (slow, bounded by a 15 s timeout), lines 120-124 create and
start the isolated processor, lines 144-149 start the loop thread, line
152 inserts the session, and leaving the `with` block releases the lock. -/
inductive StartStep where
  | lockAcquire
  | checkRegistry
  | acquireCamera
  | createProcessor
  | startThread
  | insertRegistry
  | lockRelease
deriving DecidableEq, Repr

/-- The step list of `start_camera_stream` as written in the source: every
step between `lockAcquire` and `lockRelease` executes under the registry
lock. -/
def start_camera_stream_steps : List StartStep :=
  [StartStep.lockAcquire, StartStep.checkRegistry, StartStep.acquireCamera,
   StartStep.createProcessor, StartStep.startThread, StartStep.insertRegistry,
   StartStep.lockRelease]

/-- The steps of a step list that execute while the lock is held (strictly
between the acquire and the matching release). -/
def stepsWithLockHeld (steps : List StartStep) : List StartStep :=
  (steps.foldl
    (fun (acc : List StartStep × Bool) s =>
      match s with
      | StartStep.lockAcquire => (acc.1, true)
      | StartStep.lockRelease => (acc.1, false)
      | _ => (if acc.2 then acc.1 ++ [s] else acc.1, acc.2))
    ([], false)).1

/-- Worker of `interleavings`, structurally recursive on a fuel bound (at
least the total number of remaining steps, so it is never exhausted). -/
def interleavingsLoop : Nat → List StartStep → List StartStep →
    List (List (Bool × StartStep))
  | 0, _, _ => [[]]
  | fuel + 1, as, bs =>
      match as, bs with
      | [], [] => [[]]
      | [], b :: bs => (interleavingsLoop fuel [] bs).map (fun t => (false, b) :: t)
      | a :: as, [] => (interleavingsLoop fuel as []).map (fun t => (true, a) :: t)
      | a :: as, b :: bs =>
          (interleavingsLoop fuel as (b :: bs)).map (fun t => (true, a) :: t) ++
          (interleavingsLoop fuel (a :: as) bs).map (fun t => (false, b) :: t)

/-- All interleavings of two threads' step lists; an element is tagged
`true` when it belongs to the first thread. -/
def interleavings (as bs : List StartStep) : List (List (Bool × StartStep)) :=
  interleavingsLoop (as.length + bs.length) as bs

/-- Lock-ownership check of a tagged trace: a thread can pass
`lockAcquire` only while no thread owns the lock, and only the owner can
release; any other step is a local step.  A trace that violates this is
not a possible execution of `threading.Lock`. -/
def lockValidAux : Option Bool → List (Bool × StartStep) → Bool
  | _, [] => true
  | owner, (th, s) :: rest =>
      match s, owner with
      | StartStep.lockAcquire, none => lockValidAux (some th) rest
      | StartStep.lockAcquire, some _ => false
      | StartStep.lockRelease, some o =>
          if o == th then lockValidAux none rest else false
      | StartStep.lockRelease, none => false
      | _, _ => lockValidAux owner rest

/-- The trace of one whole call of `start_camera_stream` by one thread. -/
def taggedSteps (thread : Bool) : List (Bool × StartStep) :=
  start_camera_stream_steps.map (fun s => (thread, s))

/-- Every lock-valid interleaving of two `start_camera_stream` calls is one
call run to completion followed by the other: the calls serialize. -/
def serializedStarts : Bool :=
  (interleavings start_camera_stream_steps start_camera_stream_steps).all
    (fun t => !(lockValidAux none t)
      || (t == taggedSteps true ++ taggedSteps false
          || t == taggedSteps false ++ taggedSteps true))

/-! ## C3: the per-frame boundary of the session loop

`_camera_stream_loop` (`multi_camera_streamer.py` lines 237-277) reads a
frame, submits it to the processor and publishes the latest result inside
a `try` block; `except Exception` (lines 269-273) logs and executes
`break`.  `VideoStreamer._stream_loop` (`stream.py` lines 152-201) has the
same `except ...: break` shape.  We embed the loop over the sequence of
per-frame outcomes the iterations encounter and record what gets
published. -/

/-- What one loop iteration encounters: `cap.read()` returns no frame
(line 243), the processing stage raises (caught at lines 269-273), or a
frame is processed and published with its stats. -/
inductive FrameOutcome where
  | readFail
  | procError
  | ok (stats : Stats)
deriving DecidableEq, Repr

/-- The stats snapshots `_camera_stream_loop` publishes, given the
per-iteration outcomes: a read failure breaks (line 245), a processing
exception is caught and breaks (line 273), a processed frame is published
(lines 256-258) and the loop continues. -/
def camera_stream_loop : List FrameOutcome → List Stats
  | [] => []
  | FrameOutcome.readFail :: _ => []
  | FrameOutcome.procError :: _ => []
  | FrameOutcome.ok st :: rest => st :: camera_stream_loop rest

/-- Did the loop exit before exhausting the supplied outcomes (a `break`,
after which the `finally` block flips `is_streaming` to false)? -/
def camera_stream_loop_aborted : List FrameOutcome → Bool
  | [] => false
  | FrameOutcome.readFail :: _ => true
  | FrameOutcome.procError :: _ => true
  | FrameOutcome.ok _ :: rest => camera_stream_loop_aborted rest

/-! ## C4: `stop_camera_stream`

Lines 169-196 of `multi_camera_streamer.py`: under the registry lock, flip
`is_streaming`, release the capture handle (unblocking an in-flight
`read`), join the loop thread with a 2 second timeout, delete the registry
entry and stop the isolated processor.  We embed the method as a state
transformer that also emits the ordered list of these actions. -/

/-- The registry entry of one active camera session (the `stream_info`
dictionary, lines 128-140): its id, the `is_streaming` flag, whether the
capture handle is set (it always is for a started session) and whether the
loop thread is alive (it is while the session is mid-read). -/
structure StreamInfo where
  camId : Nat
  is_streaming : Bool
  capOpen : Bool
  threadAlive : Bool
deriving DecidableEq, Repr

/-- The observable actions of `stop_camera_stream`, in source order. -/
inductive StopAction where
  | setFlagFalse (camId : Nat)
  | releaseCap (camId : Nat)
  | joinThread (camId : Nat) (timeoutSecs : Nat)
  | removeFromRegistry (camId : Nat)
  | stopProcessor (camId : Nat)
deriving DecidableEq, Repr

/-- The multi-camera registry for the stop protocol. -/
structure MultiState where
  active_streams : List StreamInfo
deriving DecidableEq, Repr

/-- Look a camera id up in the registry (`camera_id in self.active_streams`
plus the dictionary read). -/
def lookupStream (l : List StreamInfo) (camId : Nat) : Option StreamInfo :=
  l.find? (fun c => c.camId == camId)

/-- `MultiCameraStreamer.stop_camera_stream` (lines 169-196): for an
unknown id only a message is printed; for an active id the flag is
flipped, the handle released (line 179, guarded by the handle being set),
the thread joined with `timeout=2.0` (line 187, only if it is alive), the
entry deleted (line 191) and the processor stopped (line 193). -/
def stop_camera_stream (s : MultiState) (camId : Nat) :
    MultiState × List StopAction :=
  match lookupStream s.active_streams camId with
  | none => (s, [])
  | some info =>
      let acts :=
        [StopAction.setFlagFalse camId]
        ++ (if info.capOpen then [StopAction.releaseCap camId] else [])
        ++ (if info.threadAlive then [StopAction.joinThread camId 2] else [])
        ++ [StopAction.removeFromRegistry camId, StopAction.stopProcessor camId]
      ({ active_streams := s.active_streams.filter (fun c => !(c.camId == camId)) },
       acts)

/-! ## C7: the robust camera acquisition protocol

`RobustCameraManager` (`robust_camera_manager.py`).  `_test_with_backend`
(lines 114-152) runs an open-and-read-first-frame test on a worker thread,
joins with the given timeout and treats a still-alive worker as failure.
`initialize_camera_robust` (lines 154-227) first probes the fixed strategy
ladder (lines 70-76) for a working backend, then re-opens with that
backend on a fresh worker under the caller's timeout, requiring
open-and-read again before the target resolution and fps are applied
(lines 197-200) and the handle returned.  We abstract an attempt's fate
(including whether the worker outlived the join timeout) into an
environment, since the hardware is outside the program. -/

/-- The capture backends of the strategy ladder, in the fixed priority
order of `test_camera_with_multiple_strategies` (lines 70-76). -/
inductive Backend where
  | direct
  | dshow
  | msmf
  | v4l2
  | anyBackend
deriving DecidableEq, Repr

/-- The fate of one open-and-read attempt on a worker thread: the worker
was still alive when the caller's `join(timeout)` returned, the handle
failed to open, the handle opened but the first frame read failed, or the
open and the first read both succeeded within the timeout. -/
inductive AttemptOutcome where
  | timedOut
  | openFail
  | readFail
  | success
deriving DecidableEq, Repr

/-- The camera hardware as the protocol observes it: the fate of the probe
attempt and of the final initialization attempt, per backend.  The two can
differ because the device is reopened. -/
structure CameraEnv where
  testOutcome : Backend → AttemptOutcome
  initOutcome : Backend → AttemptOutcome

/-- The message part of `_test_with_backend`'s result (its second tuple
component): `"Timeout after {t}s"` for a still-alive worker (line 147),
`"Camera failed to open"` (line 137) recorded as the worker's exception,
and `"Success"` (line 152) otherwise — note the source returns
`(False, "Success")` when the open worked but the first read failed. -/
inductive TestMsg where
  | timeoutAfter (secs : Nat)
  | cameraFailedToOpen
  | successMsg
deriving DecidableEq, Repr

/-- `RobustCameraManager._test_with_backend` (lines 114-152): joins the
worker with the timeout; still-alive counts as failure; otherwise the test
succeeds exactly when the handle opened and a first frame was read. -/
def test_with_backend (env : CameraEnv) (timeoutSecs : Nat) (b : Backend) :
    Bool × TestMsg :=
  match env.testOutcome b with
  | AttemptOutcome.timedOut => (false, TestMsg.timeoutAfter timeoutSecs)
  | AttemptOutcome.openFail => (false, TestMsg.cameraFailedToOpen)
  | AttemptOutcome.readFail => (false, TestMsg.successMsg)
  | AttemptOutcome.success => (true, TestMsg.successMsg)

/-- The strategy ladder of `test_camera_with_multiple_strategies`
(lines 70-76): direct OpenCV, DirectShow, Media Foundation, V4L2, any. -/
def strategyOrder : List Backend :=
  [Backend.direct, Backend.dshow, Backend.msmf, Backend.v4l2, Backend.anyBackend]

/-- `RobustCameraManager.test_camera_with_multiple_strategies`
(lines 68-92): try the ladder in order and return the first backend whose
test succeeds (`none` plays the role of `(False, "All strategies
failed")`). -/
def test_multiple_strategies (env : CameraEnv) (timeoutSecs : Nat) :
    Option Backend :=
  strategyOrder.find? (fun b => (test_with_backend env timeoutSecs b).1)

/-- A returned capture handle: which backend opened it and the target
properties applied to it by `cap.set(...)` (lines 198-200). -/
structure CapHandle where
  backend : Backend
  width : Nat
  height : Nat
  fps : Nat
deriving DecidableEq, Repr

/-- `RobustCameraManager.initialize_camera_robust` (lines 154-227): probe
the ladder with a 5 second per-strategy timeout (line 160); with no
working strategy return `None` (line 164); otherwise rerun
open-and-read-first-frame with the chosen backend on a worker joined with
the caller's timeout, and only on success apply width, height and fps and
return the handle; a timed-out, unopened or unreadable reopen returns
`None` (lines 202-227). -/
def initialize_camera_robust (env : CameraEnv) (width height fps : Nat)
    (_timeoutSecs : Nat) : Option CapHandle :=
  match test_multiple_strategies env 5 with
  | none => none
  | some b =>
      match env.initOutcome b with
      | AttemptOutcome.success => some ⟨b, width, height, fps⟩
      | _ => none

/-! ## C9: starting a recording

`MultiCameraStreamer.start_recording` (lines 317-353) refuses when there
is no active camera or no active session has a `latest_frame`;
`VideoStreamer.start_recording` (`stream.py` lines 248-265) refuses when
no stream is active.  Only then is the recorder asked to start. -/

/-- The state `MultiCameraStreamer.start_recording` consults: the isolated
manager's active-camera list (`get_active_cameras`, line 330), the
registry's sessions with their `latest_frame` slot (an abstract frame
value), and the multi-camera recorder's active recording ids. -/
structure McRecState where
  activeCameras : List Nat
  sessionFrames : List (Nat × Option Nat)
  recordings : List String
deriving DecidableEq, Repr

/-- `MultiCameraStreamer.start_recording` (lines 317-353): `False` with no
active cameras (line 333); collect the sample frames of sessions holding a
`latest_frame` (lines 336-345); `False` when none (line 349); otherwise
hand the samples to the recorder.  That the recorder, given sample frames,
starts the recording is modelled from the spec (section 4.6):
`MultiCameraVideoRecorder.start_multi_camera_recording` is not in the
repository snapshot. -/
def multi_start_recording (s : McRecState) (rid : String) :
    Bool × McRecState :=
  if s.activeCameras.isEmpty then (false, s)
  else
    let samples := s.sessionFrames.filterMap (fun p => p.2.map (fun f => (p.1, f)))
    if samples.isEmpty then (false, s)
    else (true, { s with recordings := rid :: s.recordings })

/-- The state `VideoStreamer.start_recording` consults: the streaming flag
and the single-stream recorder's active recording ids. -/
structure VsState where
  is_streaming : Bool
  recordings : List String
deriving DecidableEq, Repr

/-- `VideoStreamer.start_recording` (`stream.py` lines 248-265): `False`
when no stream is active (lines 261-263), otherwise the recorder starts
(`VideoRecorder.start_recording` is not in the repository snapshot;
modelled from the spec, section 4.6). -/
def vs_start_recording (s : VsState) (rid : String) : Bool × VsState :=
  if s.is_streaming then (true, { s with recordings := rid :: s.recordings })
  else (false, s)

/-! ## C10: per-camera frame and stats accessors

`get_camera_frame` (lines 285-292) and `get_camera_stats` (lines 294-301)
return `None` for a camera id without a registry entry or with an empty
latest slot, and otherwise `.copy()` of the latest value.  To express that
the caller receives a fresh object (so it can never mutate the session's
internal slot), frames and stats live in explicit stores and the slots
hold references; `.copy()` appends a fresh cell with equal contents. -/

/-- A session's guarded latest slots: references into the frame and stats
stores (`latest_frame`, `latest_stats` of the `stream_info` dictionary). -/
structure CamSlots where
  camId : Nat
  latestFrame : Option Nat
  latestStats : Option Nat
deriving DecidableEq, Repr

/-- The registry together with the stores the slot references point into
(frame contents are abstract values). -/
structure FrameStore where
  sessions : List CamSlots
  frameHeap : List Nat
  statsHeap : List Stats
deriving DecidableEq, Repr

/-- Registry lookup (`camera_id in self.active_streams`). -/
def find_stream (l : List CamSlots) (camId : Nat) : Option CamSlots :=
  l.find? (fun c => c.camId == camId)

/-- `MultiCameraStreamer.get_camera_frame` (lines 285-292): `None` for an
unknown id or an empty slot; otherwise `latest_frame.copy()` — a fresh
reference carrying the same contents, the slot itself untouched. -/
def get_camera_frame (s : FrameStore) (camId : Nat) :
    Option Nat × FrameStore :=
  match find_stream s.sessions camId with
  | none => (none, s)
  | some info =>
      match info.latestFrame with
      | none => (none, s)
      | some r =>
          (some s.frameHeap.length,
           { s with frameHeap := s.frameHeap ++ [s.frameHeap.getD r 0] })

/-- `MultiCameraStreamer.get_camera_stats` (lines 294-301): `None` for an
unknown id; `latest_stats.copy()` when the slot holds a snapshot (the
source's truthiness test `if stream_info['latest_stats']` coincides with
presence, since a published stats dictionary always has its four keys);
`None` otherwise. -/
def get_camera_stats (s : FrameStore) (camId : Nat) :
    Option Nat × FrameStore :=
  match find_stream s.sessions camId with
  | none => (none, s)
  | some info =>
      match info.latestStats with
      | none => (none, s)
      | some r =>
          (some s.statsHeap.length,
           { s with statsHeap := s.statsHeap ++ [s.statsHeap.getD r Stats.zero] })

/-! ## The processing pipeline (C5, C6, C8)

`AttentionPipeline.process_frame` (`pipeline.py` lines 41-176) is in the
repository; the `PersonTracker` (`core/tracker.py`) and
`HeadPoseEstimator` (`core/head_pose.py`) it drives are not, so their
state and operations are modelled from the spec (sections 4.1 and 4.2) and
marked as such.  Angles are rationals. -/

/-- Attention status labels: the three bands plus the `"No face detected"`
string set at `pipeline.py` line 91. -/
inductive Status where
  | green
  | yellow
  | red
  | noFace
deriving DecidableEq, Repr

/-- Association-list lookup (dictionary read keyed by identity id). -/
def alookup {α : Type} : List (Nat × α) → Nat → Option α
  | [], _ => none
  | (k, v) :: rest, key => if k = key then some v else alookup rest key

/-- Association-list write (dictionary insert/overwrite). -/
def aset {α : Type} : List (Nat × α) → Nat → α → List (Nat × α)
  | [], key, v => [(key, v)]
  | (k, w) :: rest, key, v =>
      if k = key then (key, v) :: rest else (k, w) :: aset rest key v

/-- Association-list delete (dictionary `pop`). -/
def aerase {α : Type} : List (Nat × α) → Nat → List (Nat × α)
  | [], _ => []
  | (k, w) :: rest, key =>
      if k = key then aerase rest key else (k, w) :: aerase rest key

/-- The hysteresis record the classifier keeps per identity: the committed
status and, while a different status is being observed, that candidate
with its consecutive-frame streak.  Modelled from the spec (section 4.2:
"a status change is only committed once it has been observed for K
consecutive frames"). -/
structure HystEntry where
  committed : Status
  pending : Option (Status × Nat)
deriving DecidableEq, Repr

/-- Modelled from the spec: the state of `HeadPoseEstimator`
(`core/head_pose.py`, not in the repository snapshot) per section 4.2 —
the two attention thresholds, the bounded pose-history length N, the
hysteresis length K, and the per-identity pose history, last smoothed
pose, and hysteresis record. -/
structure HeadPoseState where
  yaw_threshold : ℚ
  pitch_threshold : ℚ
  historyLen : Nat
  commitFrames : Nat
  history : List (Nat × List (ℚ × ℚ))
  lastPose : List (Nat × (ℚ × ℚ))
  hyst : List (Nat × HystEntry)
deriving DecidableEq, Repr

/-- Modelled from the spec (section 4.2): the raw band of an angle pair —
within both thresholds green, outside exactly one yellow, outside both
red. -/
def raw_status (st : HeadPoseState) (yaw pitch : ℚ) : Status :=
  if |yaw| ≤ st.yaw_threshold ∧ |pitch| ≤ st.pitch_threshold then Status.green
  else if |yaw| ≤ st.yaw_threshold ∨ |pitch| ≤ st.pitch_threshold then Status.yellow
  else Status.red

/-- One hysteresis update: seeing the committed status again drops any
pending candidate; a divergent status must be seen for K consecutive
frames before it commits, and until then the committed status is
returned.  Modelled from the spec (section 4.2). -/
def hyst_step (k : Nat) (entry : HystEntry) (raw : Status) : HystEntry × Status :=
  if raw = entry.committed then (⟨entry.committed, none⟩, entry.committed)
  else
    match entry.pending with
    | some (cand, n) =>
        if raw = cand then
          if k ≤ n + 1 then (⟨raw, none⟩, raw)
          else (⟨entry.committed, some (cand, n + 1)⟩, entry.committed)
        else
          if k ≤ 1 then (⟨raw, none⟩, raw)
          else (⟨entry.committed, some (raw, 1)⟩, entry.committed)
    | none =>
        if k ≤ 1 then (⟨raw, none⟩, raw)
        else (⟨entry.committed, some (raw, 1)⟩, entry.committed)

/-- Modelled from the spec: `HeadPoseEstimator.classify_attention`
(section 4.2).  Without an identity id the raw band is returned and no
state changes; with an id the per-identity hysteresis is consulted and
updated (an identity seen for the first time commits its raw band
directly). -/
def classify_attention (st : HeadPoseState) (yaw pitch : ℚ)
    (pid : Option Nat) : HeadPoseState × Status :=
  let raw := raw_status st yaw pitch
  match pid with
  | none => (st, raw)
  | some p =>
      let entry := (alookup st.hyst p).getD ⟨raw, none⟩
      let step := hyst_step st.commitFrames entry raw
      ({ st with hyst := aset st.hyst p step.1 }, step.2)

/-- Feed a sequence of angle pairs of one identity through
`classify_attention`, collecting the committed statuses it returns (the
per-frame calls of the pipeline for that identity). -/
def run_classify (st : HeadPoseState) (pid : Nat) :
    List (ℚ × ℚ) → HeadPoseState × List Status
  | [] => (st, [])
  | yp :: rest =>
      let c := classify_attention st yp.1 yp.2 (some pid)
      let r := run_classify c.1 pid rest
      (r.1, c.2 :: r.2)

/-- Modelled from the spec: `HeadPoseEstimator.smooth_pose` (section 4.2)
— append the sample to the identity's bounded history (last N samples)
and return the history average, remembered as the identity's last known
pose. -/
def smooth_pose (st : HeadPoseState) (pid : Nat) (yaw pitch : ℚ) :
    HeadPoseState × (ℚ × ℚ) :=
  let hist0 := ((alookup st.history pid).getD []) ++ [(yaw, pitch)]
  let hist := hist0.drop (hist0.length - st.historyLen)
  let n : ℚ := hist.length
  let avg : ℚ × ℚ := ((hist.map Prod.fst).sum / n, (hist.map Prod.snd).sum / n)
  ({ st with history := aset st.history pid hist,
             lastPose := aset st.lastPose pid avg }, avg)

/-- Modelled from the spec: `HeadPoseEstimator.get_last_known_pose`
(section 4.2) — the identity's last smoothed pose; the `(0, 0)` default
for an identity with no recorded pose is fixed by the caller's guard at
`pipeline.py` line 151. -/
def get_last_known_pose (st : HeadPoseState) (pid : Nat) : ℚ × ℚ :=
  (alookup st.lastPose pid).getD (0, 0)

/-- Modelled from the spec: `HeadPoseEstimator.get_attention_confidence`
(section 4.2) — the current streak ratio of the identity's pending
candidate (1 when nothing is pending); read-only. -/
def get_attention_confidence (st : HeadPoseState) (pid : Nat) : ℚ :=
  match alookup st.hyst pid with
  | none => 1
  | some entry =>
      match entry.pending with
      | none => 1
      | some (_, n) => (n : ℚ) / (st.commitFrames : ℚ)

/-- Modelled from the spec: `HeadPoseEstimator.clear_history(id)` (section
4.2) — purge every per-identity record of a retired identity. -/
def clear_history_for (st : HeadPoseState) (pid : Nat) : HeadPoseState :=
  { st with history := aerase st.history pid,
            lastPose := aerase st.lastPose pid,
            hyst := aerase st.hyst pid }

/-! ### The identity tracker, modelled from the spec (section 4.1) -/

/-- An axis-aligned bounding box with rational corners. -/
structure Box where
  x1 : ℚ
  y1 : ℚ
  x2 : ℚ
  y2 : ℚ
deriving DecidableEq, Repr

/-- Overlap length of two closed intervals, clamped at zero. -/
def interLen (a1 a2 b1 b2 : ℚ) : ℚ :=
  max 0 (min a2 b2 - max a1 b1)

/-- Box area, clamped at zero for degenerate corners. -/
def boxArea (b : Box) : ℚ :=
  max 0 (b.x2 - b.x1) * max 0 (b.y2 - b.y1)

/-- Intersection-over-Union of two boxes (0 for an empty union). -/
def iou (a b : Box) : ℚ :=
  let inter := interLen a.x1 a.x2 b.x1 b.x2 * interLen a.y1 a.y2 b.y1 b.y2
  let uni := boxArea a + boxArea b - inter
  if uni ≤ 0 then 0 else inter / uni

/-- One persistent track: identity id, last matched box, consecutive-miss
counter.  Modelled from the spec (section 3, Track). -/
structure Track where
  id : Nat
  box : Box
  miss : Nat
deriving DecidableEq, Repr

/-- Modelled from the spec: the state of `PersonTracker`
(`core/tracker.py`, not in the repository snapshot) per section 4.1 — the
IoU threshold, the disappearance threshold, the live tracks, the
monotonically increasing next id, and the ids retired by the most recent
update (reported by `get_disappeared_track_ids`). -/
structure TrackerState where
  iou_threshold : ℚ
  disappearLimit : Nat
  tracks : List Track
  nextId : Nat
  disappeared : List Nat
deriving DecidableEq, Repr

/-- All (track id, detection index, IoU) candidates at or above the
threshold (section 4.1, step 1). -/
def candidate_pairs (tracks : List Track) (dets : List Box) (thr : ℚ) :
    List (Nat × Nat × ℚ) :=
  tracks.flatMap (fun t =>
    dets.enum.filterMap (fun jd =>
      let v := iou t.box jd.2
      if thr ≤ v then some (t.id, jd.1, v) else none))

/-- Pair ordering of the greedy matcher: higher IoU first, ties by lower
existing-track id (section 4.1, step 2). -/
def pairBefore (p q : Nat × Nat × ℚ) : Bool :=
  q.2.2 < p.2.2 || (q.2.2 == p.2.2 && p.1 < q.1)

/-- Insertion step of the descending sort. -/
def insertPair (p : Nat × Nat × ℚ) : List (Nat × Nat × ℚ) → List (Nat × Nat × ℚ)
  | [] => [p]
  | q :: rest => if pairBefore p q then p :: q :: rest else q :: insertPair p rest

/-- Sort the candidates in descending IoU order (ties by lower track id). -/
def sortPairs (l : List (Nat × Nat × ℚ)) : List (Nat × Nat × ℚ) :=
  l.foldr insertPair []

/-- Greedy matching: accept a pair only when neither its track nor its
detection is already matched (section 4.1, step 2). -/
def greedy_match : List (Nat × Nat × ℚ) → List Nat → List Nat → List (Nat × Nat)
  | [], _, _ => []
  | (tid, j, _) :: rest, usedT, usedD =>
      if usedT.contains tid || usedD.contains j then greedy_match rest usedT usedD
      else (tid, j) :: greedy_match rest (tid :: usedT) (j :: usedD)

/-- Walk the detections in index order, giving a matched detection its
track's id and an unmatched one a freshly allocated id (and a new track);
returns the per-detection ids, the new tracks and the next free id
(section 4.1, steps 3-4). -/
def assign_dets (mts : List (Nat × Nat)) :
    List Box → Nat → Nat → List Nat × List Track × Nat
  | [], _, fresh => ([], [], fresh)
  | d :: rest, j, fresh =>
      match mts.find? (fun m => m.2 == j) with
      | some m =>
          let r := assign_dets mts rest (j + 1) fresh
          (m.1 :: r.1, r.2.1, r.2.2)
      | none =>
          let r := assign_dets mts rest (j + 1) (fresh + 1)
          (fresh :: r.1, ⟨fresh, d, 0⟩ :: r.2.1, r.2.2)

/-- The accepted (track id, detection index) pairs of one update: greedy
matching over the sorted candidates (section 4.1, step 2). -/
def tracker_matches (st : TrackerState) (dets : List Box) : List (Nat × Nat) :=
  greedy_match (sortPairs (candidate_pairs st.tracks dets st.iou_threshold)) [] []

/-- The tracks after the per-frame bookkeeping: a matched track takes the
detection's box and resets its miss counter, an unmatched one increments
it (section 4.1, step 3). -/
def tracker_updated (st : TrackerState) (dets : List Box) : List Track :=
  st.tracks.map (fun t =>
    match (tracker_matches st dets).find? (fun m => m.1 == t.id) with
    | some m => { t with box := dets.getD m.2 t.box, miss := 0 }
    | none => { t with miss := t.miss + 1 })

/-- Modelled from the spec: `PersonTracker.update` (section 4.1).  Greedy
IoU matching; a matched track takes the detection's box and resets its
miss counter, an unmatched track increments it; tracks whose counter
exceeds the disappearance threshold are retired and reported via the
`disappeared` field (`get_disappeared_track_ids`); unmatched detections
spawn fresh monotone ids.  Returns the per-detection identity ids
alongside the new state. -/
def tracker_update (st : TrackerState) (dets : List Box) :
    TrackerState × List Nat :=
  let updated := tracker_updated st dets
  let retired := updated.filter (fun t => st.disappearLimit < t.miss)
  let survivors := updated.filter (fun t => t.miss ≤ st.disappearLimit)
  let assigned := assign_dets (tracker_matches st dets) dets 0 st.nextId
  ({ st with tracks := survivors ++ assigned.2.1,
             nextId := assigned.2.2,
             disappeared := retired.map (fun t => t.id) },
   assigned.1)

/-! ### `AttentionPipeline.process_frame` (`pipeline.py` lines 41-176) -/

/-- A detection as it flows through `process_frame`: its box, the status
set so far, whether a head direction vector was obtained (face found), the
current yaw/pitch, and the identity id once the tracker assigned one. -/
structure Det where
  bbox : Box
  status : Status
  headVectorPresent : Bool
  yaw : ℚ
  pitch : ℚ
  pid : Option Nat
deriving DecidableEq, Repr

/-- Step 2 of `process_frame` (lines 74-115): a detection whose face crop
yields no landmarks gets status `"No face detected"`, no head vector and
zero angles (lines 89-93); otherwise the pose adapter's angles are
classified without an id (line 102) and the head vector is set.  The input
carries, per detection, the box and the pose adapter's outcome. -/
def pose_stage (st : HeadPoseState) (input : List (Box × Option (ℚ × ℚ))) :
    List Det :=
  input.map (fun bf =>
    match bf.2 with
    | none => ⟨bf.1, Status.noFace, false, 0, 0, none⟩
    | some yp =>
        ⟨bf.1, (classify_attention st yp.1 yp.2 none).2, true, yp.1, yp.2, none⟩)

/-- Attach the tracker's identity ids to the detections (the `'id'` field
`tracker.update` sets, consumed at line 127). -/
def zip_set_ids : List Det → List Nat → List Det
  | [], _ => []
  | _, [] => []
  | d :: ds, i :: is' => { d with pid := some i } :: zip_set_ids ds is'

/-- Step 4 of `process_frame`, one detection (lines 126-155): with a head
vector, smooth the pose, re-classify with the identity id and update the
angles and vector (lines 129-146); with face detection failed but the
person tracked, fetch the last known pose and, when it is not the `(0, 0)`
default, classify from it (lines 147-155); otherwise leave the detection
as it is. -/
def apply_smoothing (hp : HeadPoseState) (d : Det) : HeadPoseState × Det :=
  match d.pid with
  | none => (hp, d)
  | some pid =>
      if d.headVectorPresent then
        let sm := smooth_pose hp pid d.yaw d.pitch
        let cl := classify_attention sm.1 sm.2.1 sm.2.2 (some pid)
        (cl.1, { d with yaw := sm.2.1, pitch := sm.2.2, status := cl.2 })
      else
        let lp := get_last_known_pose hp pid
        if lp.1 ≠ 0 ∨ lp.2 ≠ 0 then
          let cl := classify_attention hp lp.1 lp.2 (some pid)
          (cl.1, { d with yaw := lp.1, pitch := lp.2, status := cl.2 })
        else (hp, d)

/-- Step 4 over the whole detection list, threading the classifier
state. -/
def smoothing_stage : HeadPoseState → List Det → HeadPoseState × List Det
  | hp, [] => (hp, [])
  | hp, d :: rest =>
      let h1 := apply_smoothing hp d
      let h2 := smoothing_stage h1.1 rest
      (h2.1, h1.2 :: h2.2)

/-- Modelled from the spec: `count_statuses` (`core/utils.py`, not in the
repository snapshot).  Per sections 3 and 4.2 it counts the three bands
("no face detected" falls in the red band) and the total. -/
def count_statuses (dets : List Det) : Stats :=
  dets.foldr (fun d acc =>
    match d.status with
    | Status.green => { acc with green := acc.green + 1, total := acc.total + 1 }
    | Status.yellow => { acc with yellow := acc.yellow + 1, total := acc.total + 1 }
    | Status.red => { acc with red := acc.red + 1, total := acc.total + 1 }
    | Status.noFace => { acc with red := acc.red + 1, total := acc.total + 1 })
    Stats.zero

/-- The pipeline state `process_frame` threads: the tracker and the head
pose estimator. -/
structure PipelineState where
  tracker : TrackerState
  hp : HeadPoseState
deriving DecidableEq, Repr

/-- `AttentionPipeline.process_frame` (lines 41-176), the tracking and
classification core: the pose stage (lines 74-115), the tracker update
(line 118), the same-frame purge of every retired identity's smoothing
state (lines 120-123), the smoothing stage (lines 126-155) and the status
counts (line 158). -/
def process_frame (ps : PipelineState) (input : List (Box × Option (ℚ × ℚ))) :
    PipelineState × List Det × Stats :=
  let dets0 := pose_stage ps.hp input
  let upd := tracker_update ps.tracker (dets0.map (fun d => d.bbox))
  let tracked := zip_set_ids dets0 upd.2
  let hp1 := upd.1.disappeared.foldl clear_history_for ps.hp
  let sm := smoothing_stage hp1 tracked
  (⟨upd.1, sm.1⟩, sm.2, count_statuses sm.2)

/-! ### Concrete scenarios used by the witnesses and counterexamples -/

/-- A fresh head-pose estimator with the default thresholds of
`AttentionPipeline.__init__` (yaw 25, pitch 20), history length 5 and a
3-frame hysteresis. -/
def hpInit : HeadPoseState :=
  { yaw_threshold := 25, pitch_threshold := 20, historyLen := 5,
    commitFrames := 3, history := [], lastPose := [], hyst := [] }

/-- Classifier state with smoothing records for identity 4. -/
def c5hp : HeadPoseState :=
  { hpInit with history := [(4, [(1, 1)])], lastPose := [(4, (1, 1))],
                hyst := [(4, ⟨Status.green, none⟩)] }

/-- Tracker whose only track (identity 4) is one missed frame away from
the disappearance threshold. -/
def c5tracker : TrackerState :=
  { iou_threshold := 3 / 10, disappearLimit := 10,
    tracks := [⟨4, ⟨0, 0, 10, 10⟩, 10⟩], nextId := 5, disappeared := [] }

/-- Classifier state with identity 7 committed to the green band and no
pending candidate. -/
def c6hp : HeadPoseState :=
  { hpInit with hyst := [(7, ⟨Status.green, none⟩)] }

/-- Classifier state in which identity 1 has a genuinely recorded last
smoothed pose of exactly (0, 0) — a perfectly frontal face. -/
def c8hp : HeadPoseState := (smooth_pose hpInit 1 0 0).1

/-- Classifier state in which identity 1 has a recorded last smoothed
pose of (30, 0). -/
def c8hpNZ : HeadPoseState := (smooth_pose hpInit 1 30 0).1

/-- A tracked detection of identity 1 on a frame whose face detection
failed (no head vector, `"No face detected"` status from the pose
stage). -/
def c8det : Det :=
  ⟨⟨0, 0, 4, 4⟩, Status.noFace, false, 0, 0, some 1⟩

/-- A camera environment in which only the DirectShow probe and reopen
succeed. -/
def c7env : CameraEnv :=
  ⟨fun b => match b with
    | Backend.dshow => AttemptOutcome.success
    | _ => AttemptOutcome.timedOut,
   fun _ => AttemptOutcome.success⟩

/-- A camera environment in which every strategy times out. -/
def c7envDead : CameraEnv :=
  ⟨fun _ => AttemptOutcome.timedOut, fun _ => AttemptOutcome.timedOut⟩

/-! # Theorems -/

/-! ### Shared helper lemmas -/

theorem Stats.zero_add (s : Stats) : Stats.add Stats.zero s = s := by
  cases s; simp [Stats.add, Stats.zero]

theorem isolatedAggregate_cons_none (camId : Nat) (rest : List CamSession) :
    isolatedAggregate (⟨camId, none⟩ :: rest) = isolatedAggregate rest := by
  simp [isolatedAggregate, Stats.zero_add]

theorem runOrch_append (evs : List OrchEvent) (e : OrchEvent) :
    runOrch (evs ++ [e]) = orchStep (runOrch evs) e := by
  simp [runOrch, List.foldl_append]

/-! ### C1 -/

/-- C1, counterexample.  Start camera 0, let it publish one frame's stats,
stop it, then query: `get_aggregated_stats` still returns the sum cached
at the last publication, not the per-band sum over the (now empty) set of
active sessions at the moment of the query — `stop_camera_stream`
(lines 169-196) never refreshes the cache that `get_aggregated_stats`
(lines 303-306) copies out. -/
theorem get_aggregated_stats_stale_counterexample :
    get_aggregated_stats
        (runOrch [OrchEvent.start 0, OrchEvent.publish 0 ⟨1, 0, 0, 1⟩,
                  OrchEvent.stop 0])
      ≠ isolatedAggregate
          (runOrch [OrchEvent.start 0, OrchEvent.publish 0 ⟨1, 0, 0, 1⟩,
                    OrchEvent.stop 0]).sessions := by
  decide

/-- C1, amended.  The value `get_aggregated_stats` returns equals the
exact per-band sum of the active sessions' latest published stats as
recomputed at the most recent frame publication (`_update_aggregated_stats`,
lines 280-283), not at the moment of the query; a session that has not yet
published a frame contributes all-zero counts to that sum rather than an
error, and before any publication the value is all zeros. -/
theorem get_aggregated_stats_last_publish :
    (∀ (evs : List OrchEvent) (camId : Nat) (st : Stats),
      hasSession (runOrch evs).sessions camId = true →
      get_aggregated_stats (runOrch (evs ++ [OrchEvent.publish camId st]))
        = isolatedAggregate
            (runOrch (evs ++ [OrchEvent.publish camId st])).sessions)
    ∧ (∀ (camId : Nat) (rest : List CamSession),
        isolatedAggregate (⟨camId, none⟩ :: rest) = isolatedAggregate rest)
    ∧ get_aggregated_stats (runOrch []) = Stats.zero := by
  refine ⟨?_, fun camId rest => isolatedAggregate_cons_none camId rest, rfl⟩
  intro evs camId st h
  rw [runOrch_append]
  simp [orchStep, h, get_aggregated_stats]

/-- C1, witness: camera 0 started and having published `⟨2, 1, 1, 4⟩`, the
query right after the publication returns exactly the aggregate. -/
theorem get_aggregated_stats_last_publish_witness :
    get_aggregated_stats
        (runOrch ([OrchEvent.start 0] ++ [OrchEvent.publish 0 ⟨2, 1, 1, 4⟩]))
      = isolatedAggregate
          (runOrch ([OrchEvent.start 0]
            ++ [OrchEvent.publish 0 ⟨2, 1, 1, 4⟩])).sessions :=
  get_aggregated_stats_last_publish.1 [OrchEvent.start 0] 0 ⟨2, 1, 1, 4⟩
    (by decide)

/-! ### C2 -/

/-- C2, counterexample.  The claim says the registry lock is never held
during camera acquisition; in `start_camera_stream` as written
(lines 103-154) the acquisition step lies strictly inside the
`with self.stream_lock:` block, so it executes with the lock held. -/
theorem start_lock_held_during_acquisition :
    (stepsWithLockHeld start_camera_stream_steps).contains
      StartStep.acquireCamera = true := by
  decide

set_option maxRecDepth 40000 in
/-- C2, amended.  `start_camera_stream` holds the registry lock for its
whole body, camera acquisition included; consequently two concurrent
`start_camera_stream` calls — even on distinct camera ids — serialize
completely: in every lock-valid interleaving one call (its acquisition and
possibly its full 15 s acquisition timeout included) finishes before any
step of the other runs. -/
theorem start_camera_stream_serializes :
    (stepsWithLockHeld start_camera_stream_steps).contains
        StartStep.acquireCamera = true
    ∧ serializedStarts = true := by
  constructor
  · decide
  · decide

/-! ### C3 -/

/-- C3, counterexample.  A processing exception on the first frame: the
loop publishes nothing for that frame (no "no-detection" publication) and
breaks, so the following healthy frame — which on its own would be
published — is never processed; the loop aborts instead of continuing. -/
theorem stream_loop_error_counterexample :
    camera_stream_loop [FrameOutcome.procError, FrameOutcome.ok ⟨1, 0, 0, 1⟩]
        = []
    ∧ camera_stream_loop [FrameOutcome.ok ⟨1, 0, 0, 1⟩] = [⟨1, 0, 0, 1⟩]
    ∧ camera_stream_loop_aborted
        [FrameOutcome.procError, FrameOutcome.ok ⟨1, 0, 0, 1⟩] = true := by
  decide

/-- C3, amended.  An exception raised by the processing stage during a
frame is caught at the per-frame boundary (the loop body's `except`
handler — it does not propagate out of the loop), but the frame is not
published with any status and the handler executes `break`: no subsequent
frame is published and the session loop terminates (after which the
`finally` block flips `is_streaming` to false), exactly as for a read
failure.  This holds for `MultiCameraStreamer._camera_stream_loop`
(lines 269-277) and `VideoStreamer._stream_loop` (`stream.py`
lines 199-203) alike. -/
theorem stream_loop_error_breaks (rest : List FrameOutcome) :
    camera_stream_loop (FrameOutcome.procError :: rest) = []
    ∧ camera_stream_loop_aborted (FrameOutcome.procError :: rest) = true :=
  ⟨rfl, rfl⟩

/-! ### C4 -/

theorem lookupStream_filter_self (l : List StreamInfo) (camId : Nat) :
    lookupStream (l.filter (fun c => !(c.camId == camId))) camId = none := by
  induction l with
  | nil => rfl
  | cons a l ih =>
      by_cases ha : a.camId = camId
      · simp [List.filter_cons, ha, ih]
      · simp [List.filter_cons, lookupStream, List.find?_cons, ha, ih]

/-- C4.  For a camera id with an active session — even one mid-read, i.e.
with its loop thread alive and its capture open — `stop_camera_stream`
performs, in this order: flip the running flag, release the capture handle
(which unblocks an in-flight `read`), join the loop thread with the
bounded 2-second timeout, remove the registry entry, stop the processor;
and afterwards the registry no longer contains the camera id. -/
theorem stop_camera_stream_protocol (s : MultiState) (camId : Nat)
    (info : StreamInfo)
    (hfound : lookupStream s.active_streams camId = some info)
    (hcap : info.capOpen = true) (halive : info.threadAlive = true) :
    (stop_camera_stream s camId).2
        = [StopAction.setFlagFalse camId, StopAction.releaseCap camId,
           StopAction.joinThread camId 2, StopAction.removeFromRegistry camId,
           StopAction.stopProcessor camId]
    ∧ lookupStream (stop_camera_stream s camId).1.active_streams camId
        = none := by
  constructor
  · simp [stop_camera_stream, hfound, hcap, halive]
  · simp [stop_camera_stream, hfound, lookupStream_filter_self]

/-- C4, witness: stopping camera 3, whose session is mid-read. -/
theorem stop_camera_stream_protocol_witness :
    (stop_camera_stream ⟨[⟨3, true, true, true⟩]⟩ 3).2
        = [StopAction.setFlagFalse 3, StopAction.releaseCap 3,
           StopAction.joinThread 3 2, StopAction.removeFromRegistry 3,
           StopAction.stopProcessor 3]
    ∧ lookupStream (stop_camera_stream ⟨[⟨3, true, true, true⟩]⟩ 3).1.active_streams 3
        = none :=
  stop_camera_stream_protocol ⟨[⟨3, true, true, true⟩]⟩ 3 ⟨3, true, true, true⟩
    (by decide) rfl rfl

/-! ### C7 -/

/-- C7.  The acquisition protocol: (1) a returned handle means the chosen
backend is one of the ladder's strategies, its probe (open plus first
frame read, on a worker joined with the hard timeout) succeeded, its
reopen succeeded likewise, and the target width, height and fps were
applied to the handle; (2) an attempt whose worker is still alive at the
join timeout is a failure for that strategy; (3) when every strategy fails
or times out, the protocol returns no handle. -/
theorem initialize_camera_robust_contract :
    (∀ (env : CameraEnv) (w h f t : Nat) (cap : CapHandle),
      initialize_camera_robust env w h f t = some cap →
      cap.backend ∈ strategyOrder
      ∧ env.testOutcome cap.backend = AttemptOutcome.success
      ∧ env.initOutcome cap.backend = AttemptOutcome.success
      ∧ cap.width = w ∧ cap.height = h ∧ cap.fps = f)
    ∧ (∀ (env : CameraEnv) (t : Nat) (b : Backend),
        env.testOutcome b = AttemptOutcome.timedOut →
        test_with_backend env t b = (false, TestMsg.timeoutAfter t))
    ∧ (∀ (env : CameraEnv) (w h f t : Nat),
        (∀ b ∈ strategyOrder, env.testOutcome b ≠ AttemptOutcome.success) →
        initialize_camera_robust env w h f t = none) := by
  refine ⟨?_, ?_, ?_⟩
  · intro env w h f t cap hc
    unfold initialize_camera_robust at hc
    cases hfind : test_multiple_strategies env 5 with
    | none => rw [hfind] at hc; exact absurd hc (by simp)
    | some b =>
        rw [hfind] at hc
        have hb : b ∈ strategyOrder :=
          List.mem_of_find?_eq_some hfind
        have hp : (test_with_backend env 5 b).1 = true := by
          have := List.find?_some hfind
          simpa using this
        have htest : env.testOutcome b = AttemptOutcome.success := by
          cases hto : env.testOutcome b <;>
            first
              | rfl
              | simp [test_with_backend, hto] at hp
        cases hio : env.initOutcome b <;> simp [hio] at hc
        subst hc
        exact ⟨hb, htest, hio, rfl, rfl, rfl⟩
  · intro env t b hto
    simp [test_with_backend, hto]
  · intro env w h f t hall
    have hfind : test_multiple_strategies env 5 = none := by
      unfold test_multiple_strategies
      rw [List.find?_eq_none]
      intro b hb
      cases hto : env.testOutcome b <;>
        simp [test_with_backend, hto]
      exact hall b hb hto
    simp [initialize_camera_robust, hfind]

/-- C7, witness: in an environment where only the DirectShow probe
succeeds (the other strategies time out) and the reopen succeeds, the
handle is the DirectShow one carrying the requested 640x480 at 20 fps;
and a timed-out probe is reported as a failure. -/
theorem initialize_camera_robust_contract_witness :
    (Backend.dshow ∈ strategyOrder
      ∧ c7env.testOutcome Backend.dshow = AttemptOutcome.success
      ∧ c7env.initOutcome Backend.dshow = AttemptOutcome.success
      ∧ (640 : Nat) = 640 ∧ (480 : Nat) = 480 ∧ (20 : Nat) = 20)
    ∧ test_with_backend c7envDead 5 Backend.msmf
        = (false, TestMsg.timeoutAfter 5)
    ∧ initialize_camera_robust c7envDead 640 480 20 15 = none :=
  ⟨initialize_camera_robust_contract.1 c7env 640 480 20 15
      ⟨Backend.dshow, 640, 480, 20⟩ (by decide),
   initialize_camera_robust_contract.2.1 c7envDead 5 Backend.msmf (by decide),
   initialize_camera_robust_contract.2.2 c7envDead 640 480 20 15
      (by intro b hb; cases b <;> decide)⟩

/-! ### C9 -/

/-- C9.  `start_recording` returns `False` and creates no recording (the
state is unchanged) whenever no sample frame is available: for the
multi-camera recorder when there is no active camera or when no active
session has a published `latest_frame`; for the single-stream recorder
when no stream is active. -/
theorem start_recording_requires_sample_frames :
    (∀ (s : McRecState) (rid : String), s.activeCameras = [] →
      multi_start_recording s rid = (false, s))
    ∧ (∀ (s : McRecState) (rid : String),
        (∀ p ∈ s.sessionFrames, p.2 = none) →
        multi_start_recording s rid = (false, s))
    ∧ (∀ (s : VsState) (rid : String), s.is_streaming = false →
        vs_start_recording s rid = (false, s)) := by
  refine ⟨?_, ?_, ?_⟩
  · intro s rid h
    simp [multi_start_recording, h]
  · intro s rid h
    by_cases hac : s.activeCameras.isEmpty
    · simp [multi_start_recording, hac]
    · have hsamp : s.sessionFrames.filterMap
          (fun p => p.2.map (fun f => (p.1, f))) = [] := by
        rw [List.filterMap_eq_nil_iff]
        intro p hp
        simp [h p hp]
      simp [multi_start_recording, hac, hsamp]
  · intro s rid h
    simp [vs_start_recording, h]

/-- C9, witness: one registered session that has not yet published a
frame, and an idle single-stream service. -/
theorem start_recording_requires_sample_frames_witness :
    multi_start_recording ⟨[0], [(0, none)], []⟩ "r1" = (false, ⟨[0], [(0, none)], []⟩)
    ∧ vs_start_recording ⟨false, []⟩ "r2" = (false, ⟨false, []⟩) :=
  ⟨start_recording_requires_sample_frames.2.1 ⟨[0], [(0, none)], []⟩ "r1"
      (by intro p hp; simp at hp; simp [hp]),
   start_recording_requires_sample_frames.2.2 ⟨false, []⟩ "r2" rfl⟩

/-! ### C10 -/

theorem getD_concat_length {α : Type} (l : List α) (a d : α) :
    (l ++ [a]).getD l.length d = a := by
  induction l with
  | nil => rfl
  | cons x xs ih => simp [ih]

theorem getD_append_left {α : Type} (l l2 : List α) (n : Nat) (d : α)
    (h : n < l.length) : (l ++ l2).getD n d = l.getD n d := by
  simp [List.getD, List.getElem?_append_left h]

/-- C10.  For a camera id without a registry entry, `get_camera_frame` and
`get_camera_stats` return `None` (and touch nothing) rather than raising;
for a registry entry whose latest slot holds a value, the returned value
is a fresh copy: a new reference, distinct from the slot's, carrying equal
contents, with the registry (and the slot) unchanged. -/
theorem get_camera_accessors_contract :
    (∀ (s : FrameStore) (camId : Nat),
      find_stream s.sessions camId = none →
      get_camera_frame s camId = (none, s)
      ∧ get_camera_stats s camId = (none, s))
    ∧ (∀ (s : FrameStore) (camId : Nat) (info : CamSlots) (r : Nat),
        find_stream s.sessions camId = some info →
        info.latestFrame = some r → r < s.frameHeap.length →
        (get_camera_frame s camId).1 = some s.frameHeap.length
        ∧ s.frameHeap.length ≠ r
        ∧ (get_camera_frame s camId).2.frameHeap.getD s.frameHeap.length 0
            = s.frameHeap.getD r 0
        ∧ (get_camera_frame s camId).2.sessions = s.sessions)
    ∧ (∀ (s : FrameStore) (camId : Nat) (info : CamSlots) (r : Nat),
        find_stream s.sessions camId = some info →
        info.latestStats = some r → r < s.statsHeap.length →
        (get_camera_stats s camId).1 = some s.statsHeap.length
        ∧ s.statsHeap.length ≠ r
        ∧ (get_camera_stats s camId).2.statsHeap.getD s.statsHeap.length
              Stats.zero
            = s.statsHeap.getD r Stats.zero
        ∧ (get_camera_stats s camId).2.sessions = s.sessions) := by
  refine ⟨?_, ?_, ?_⟩
  · intro s camId h
    constructor <;> simp [get_camera_frame, get_camera_stats, h]
  · intro s camId info r hfound hslot hr
    refine ⟨?_, Nat.ne_of_gt hr, ?_, ?_⟩ <;>
      simp [get_camera_frame, hfound, hslot, getD_concat_length]
  · intro s camId info r hfound hslot hr
    refine ⟨?_, Nat.ne_of_gt hr, ?_, ?_⟩ <;>
      simp [get_camera_stats, hfound, hslot, getD_concat_length]

/-- C10, witness: camera 2's session holds frame reference 0 and stats
reference 0; both accessors hand back fresh references with equal
contents. -/
theorem get_camera_accessors_contract_witness :
    ((get_camera_frame ⟨[⟨2, some 0, some 0⟩], [9], [⟨1, 2, 3, 6⟩]⟩ 2).1
        = some 1
      ∧ (1 : Nat) ≠ 0
      ∧ (get_camera_frame ⟨[⟨2, some 0, some 0⟩], [9], [⟨1, 2, 3, 6⟩]⟩ 2).2.frameHeap.getD 1 0
          = List.getD [9] 0 0
      ∧ (get_camera_frame ⟨[⟨2, some 0, some 0⟩], [9], [⟨1, 2, 3, 6⟩]⟩ 2).2.sessions
          = [⟨2, some 0, some 0⟩])
    ∧ get_camera_frame ⟨[⟨2, some 0, some 0⟩], [9], [⟨1, 2, 3, 6⟩]⟩ 7
        = (none, ⟨[⟨2, some 0, some 0⟩], [9], [⟨1, 2, 3, 6⟩]⟩) :=
  ⟨by
    have h := get_camera_accessors_contract.2.1
      ⟨[⟨2, some 0, some 0⟩], [9], [⟨1, 2, 3, 6⟩]⟩ 2 ⟨2, some 0, some 0⟩ 0
      (by decide) rfl (by decide)
    simpa using h,
   (get_camera_accessors_contract.1
      ⟨[⟨2, some 0, some 0⟩], [9], [⟨1, 2, 3, 6⟩]⟩ 7 (by decide)).1⟩

/-! ### Association-list lemmas -/

theorem alookup_aset_self {α : Type} (l : List (Nat × α)) (k : Nat) (v : α) :
    alookup (aset l k v) k = some v := by
  induction l with
  | nil => simp [aset, alookup]
  | cons a l ih =>
      obtain ⟨k1, v1⟩ := a
      by_cases h : k1 = k
      · simp [aset, h, alookup]
      · simp [aset, h, alookup, ih]

theorem alookup_aset_ne {α : Type} (l : List (Nat × α)) (k k' : Nat) (v : α)
    (h : k ≠ k') : alookup (aset l k v) k' = alookup l k' := by
  induction l with
  | nil => simp [aset, alookup, h]
  | cons a l ih =>
      obtain ⟨k1, v1⟩ := a
      by_cases h1 : k1 = k
      · subst h1; simp [aset, alookup, h]
      · simp [aset, h1, alookup, ih]

theorem alookup_aerase_self {α : Type} (l : List (Nat × α)) (k : Nat) :
    alookup (aerase l k) k = none := by
  induction l with
  | nil => simp [aerase, alookup]
  | cons a l ih =>
      obtain ⟨k1, v1⟩ := a
      by_cases h : k1 = k
      · simp [aerase, h, ih]
      · simp [aerase, h, alookup, ih]

theorem alookup_aerase_ne {α : Type} (l : List (Nat × α)) (k k' : Nat)
    (h : k ≠ k') : alookup (aerase l k) k' = alookup l k' := by
  induction l with
  | nil => simp [aerase]
  | cons a l ih =>
      obtain ⟨k1, v1⟩ := a
      by_cases h1 : k1 = k
      · subst h1; simp [aerase, alookup, h, ih]
      · simp [aerase, h1, alookup, ih]

theorem aerase_none {α : Type} (l : List (Nat × α)) (q k : Nat)
    (h : alookup l k = none) : alookup (aerase l q) k = none := by
  by_cases e : q = k
  · subst e; exact alookup_aerase_self _ _
  · rw [alookup_aerase_ne _ _ _ e]; exact h

/-! ### Classifier state preservation lemmas (C5) -/

theorem classify_history (st : HeadPoseState) (y p : ℚ) (o : Option Nat) :
    (classify_attention st y p o).1.history = st.history := by
  cases o <;> rfl

theorem classify_lastPose (st : HeadPoseState) (y p : ℚ) (o : Option Nat) :
    (classify_attention st y p o).1.lastPose = st.lastPose := by
  cases o <;> rfl

theorem classify_yaw_thr (st : HeadPoseState) (y p : ℚ) (o : Option Nat) :
    (classify_attention st y p o).1.yaw_threshold = st.yaw_threshold := by
  cases o <;> rfl

theorem classify_pitch_thr (st : HeadPoseState) (y p : ℚ) (o : Option Nat) :
    (classify_attention st y p o).1.pitch_threshold = st.pitch_threshold := by
  cases o <;> rfl

theorem classify_commitFrames (st : HeadPoseState) (y p : ℚ) (o : Option Nat) :
    (classify_attention st y p o).1.commitFrames = st.commitFrames := by
  cases o <;> rfl

theorem classify_hyst_eq (st : HeadPoseState) (y p : ℚ) (q : Nat) :
    (classify_attention st y p (some q)).1.hyst
      = aset st.hyst q
          (hyst_step st.commitFrames
            ((alookup st.hyst q).getD ⟨raw_status st y p, none⟩)
            (raw_status st y p)).1 := rfl

theorem classify_state_lookups (st : HeadPoseState) (y p : ℚ) (q k : Nat)
    (h : q ≠ k) :
    alookup (classify_attention st y p (some q)).1.history k
        = alookup st.history k
    ∧ alookup (classify_attention st y p (some q)).1.lastPose k
        = alookup st.lastPose k
    ∧ alookup (classify_attention st y p (some q)).1.hyst k
        = alookup st.hyst k := by
  refine ⟨by rw [classify_history], by rw [classify_lastPose], ?_⟩
  rw [classify_hyst_eq]
  exact alookup_aset_ne _ _ _ _ h

theorem smooth_hyst (st : HeadPoseState) (q : Nat) (y p : ℚ) :
    (smooth_pose st q y p).1.hyst = st.hyst := rfl

theorem smooth_state_lookups (st : HeadPoseState) (q k : Nat) (y p : ℚ)
    (h : q ≠ k) :
    alookup (smooth_pose st q y p).1.history k = alookup st.history k
    ∧ alookup (smooth_pose st q y p).1.lastPose k = alookup st.lastPose k
    ∧ alookup (smooth_pose st q y p).1.hyst k = alookup st.hyst k := by
  refine ⟨?_, ?_, by rw [smooth_hyst]⟩
  · exact alookup_aset_ne _ _ _ _ h
  · exact alookup_aset_ne _ _ _ _ h

theorem apply_smoothing_other (hp : HeadPoseState) (d : Det) (k : Nat)
    (h : d.pid ≠ some k) :
    alookup (apply_smoothing hp d).1.history k = alookup hp.history k
    ∧ alookup (apply_smoothing hp d).1.lastPose k = alookup hp.lastPose k
    ∧ alookup (apply_smoothing hp d).1.hyst k = alookup hp.hyst k := by
  unfold apply_smoothing
  cases hd : d.pid with
  | none => exact ⟨rfl, rfl, rfl⟩
  | some q =>
      have hq : q ≠ k := fun e => h (by rw [hd, e])
      cases hv : d.headVectorPresent
      · simp only [Bool.false_eq_true, if_false]
        by_cases hz : (get_last_known_pose hp q).1 ≠ 0 ∨ (get_last_known_pose hp q).2 ≠ 0
        · simp only [if_pos hz]
          exact classify_state_lookups hp _ _ q k hq
        · simp [if_neg hz]
      · simp only [if_true]
        obtain ⟨s1, s2, s3⟩ := smooth_state_lookups hp q k d.yaw d.pitch hq
        obtain ⟨c1, c2, c3⟩ :=
          classify_state_lookups (smooth_pose hp q d.yaw d.pitch).1 _ _ q k hq
        exact ⟨c1.trans s1, c2.trans s2, c3.trans s3⟩

theorem smoothing_stage_lookups (k : Nat) :
    ∀ (dets : List Det) (hp : HeadPoseState),
    (∀ d ∈ dets, d.pid ≠ some k) →
    alookup (smoothing_stage hp dets).1.history k = alookup hp.history k
    ∧ alookup (smoothing_stage hp dets).1.lastPose k = alookup hp.lastPose k
    ∧ alookup (smoothing_stage hp dets).1.hyst k = alookup hp.hyst k := by
  intro dets
  induction dets with
  | nil => intro hp _; exact ⟨rfl, rfl, rfl⟩
  | cons d rest ih =>
      intro hp h
      obtain ⟨a1, a2, a3⟩ := apply_smoothing_other hp d k (h d (by simp))
      obtain ⟨b1, b2, b3⟩ :=
        ih (apply_smoothing hp d).1 (fun x hx => h x (by simp [hx]))
      exact ⟨b1.trans a1, b2.trans a2, b3.trans a3⟩

theorem clear_fold_pres_none (k : Nat) :
    ∀ (ids : List Nat) (hp : HeadPoseState),
    alookup hp.history k = none → alookup hp.lastPose k = none →
    alookup hp.hyst k = none →
    alookup (ids.foldl clear_history_for hp).history k = none
    ∧ alookup (ids.foldl clear_history_for hp).lastPose k = none
    ∧ alookup (ids.foldl clear_history_for hp).hyst k = none := by
  intro ids
  induction ids with
  | nil => intro hp h1 h2 h3; exact ⟨h1, h2, h3⟩
  | cons q rest ih =>
      intro hp h1 h2 h3
      exact ih (clear_history_for hp q)
        (aerase_none _ _ _ h1) (aerase_none _ _ _ h2) (aerase_none _ _ _ h3)

theorem clear_fold_none (k : Nat) :
    ∀ (ids : List Nat) (hp : HeadPoseState), k ∈ ids →
    alookup (ids.foldl clear_history_for hp).history k = none
    ∧ alookup (ids.foldl clear_history_for hp).lastPose k = none
    ∧ alookup (ids.foldl clear_history_for hp).hyst k = none := by
  intro ids
  induction ids with
  | nil => intro hp h; simp at h
  | cons q rest ih =>
      intro hp hmem
      by_cases e : k ∈ rest
      · exact ih (clear_history_for hp q) e
      · have hqk : q = k := by
          rcases List.mem_cons.mp hmem with h | h
          · exact h.symm
          · exact absurd h e
        subst hqk
        exact clear_fold_pres_none q rest (clear_history_for hp q)
          (alookup_aerase_self _ _) (alookup_aerase_self _ _)
          (alookup_aerase_self _ _)

/-! ### Tracker lemmas (C5) -/

theorem assign_dets_mem (mts : List (Nat × Nat)) :
    ∀ (dets : List Box) (j fresh x : Nat),
    x ∈ (assign_dets mts dets j fresh).1 →
    (∃ m ∈ mts, m.1 = x) ∨ fresh ≤ x := by
  intro dets
  induction dets with
  | nil => intro j fresh x hx; simp [assign_dets] at hx
  | cons d rest ih =>
      intro j fresh x hx
      cases hf : mts.find? (fun m => m.2 == j) with
      | some m =>
          simp only [assign_dets, hf] at hx
          rcases List.mem_cons.mp hx with h | h
          · exact Or.inl ⟨m, List.mem_of_find?_eq_some hf, h.symm⟩
          · exact ih (j + 1) fresh x h
      | none =>
          simp only [assign_dets, hf] at hx
          rcases List.mem_cons.mp hx with h | h
          · subst h; exact Or.inr (Nat.le_refl _)
          · rcases ih (j + 1) (fresh + 1) x h with h2 | h2
            · exact Or.inl h2
            · exact Or.inr (Nat.le_of_succ_le h2)

theorem tracker_disappeared_src (st : TrackerState) (dets : List Box)
    (pid : Nat) (hd : pid ∈ (tracker_update st dets).1.disappeared) :
    (∃ t ∈ st.tracks, t.id = pid)
    ∧ ∀ m ∈ tracker_matches st dets, m.1 ≠ pid := by
  have hd' : pid ∈ ((tracker_updated st dets).filter
      (fun t => st.disappearLimit < t.miss)).map (fun t => t.id) := hd
  rcases List.mem_map.mp hd' with ⟨u, hu, hid⟩
  rcases List.mem_filter.mp hu with ⟨humem, hmiss⟩
  rcases List.mem_map.mp humem with ⟨t, ht, hut⟩
  cases hf : (tracker_matches st dets).find? (fun m => m.1 == t.id) with
  | some m =>
      rw [hf] at hut
      exfalso
      have : u.miss = 0 := by rw [← hut]
      rw [this] at hmiss
      simp at hmiss
  | none =>
      rw [hf] at hut
      have hidt : t.id = pid := by
        rw [← hid, ← hut]
      refine ⟨⟨t, ht, hidt⟩, ?_⟩
      intro m hm
      have := List.find?_eq_none.mp hf m hm
      simp at this
      rw [← hidt]
      exact this

theorem tracker_ids_not_disappeared (st : TrackerState) (dets : List Box)
    (pid : Nat) (hw : ∀ t ∈ st.tracks, t.id < st.nextId)
    (hd : pid ∈ (tracker_update st dets).1.disappeared) :
    ∀ i ∈ (tracker_update st dets).2, i ≠ pid := by
  obtain ⟨⟨t, ht, hid⟩, hmts⟩ := tracker_disappeared_src st dets pid hd
  intro i hi hip
  subst hip
  have hi' : i ∈ (assign_dets (tracker_matches st dets) dets 0 st.nextId).1 := hi
  rcases assign_dets_mem (tracker_matches st dets) dets 0 st.nextId i hi' with
    ⟨m, hm, hmi⟩ | hfresh
  · exact hmts m hm hmi
  · have : i < st.nextId := hid ▸ hw t ht
    exact absurd hfresh (Nat.not_le_of_lt this)

theorem zip_set_ids_pid :
    ∀ (ds : List Det) (ids : List Nat) (d : Det),
    d ∈ zip_set_ids ds ids → ∃ i ∈ ids, d.pid = some i := by
  intro ds
  induction ds with
  | nil => intro ids d h; simp [zip_set_ids] at h
  | cons x xs ih =>
      intro ids d h
      cases ids with
      | nil => simp [zip_set_ids] at h
      | cons i is' =>
          rcases List.mem_cons.mp h with h | h
          · exact ⟨i, by simp, by rw [h]⟩
          · rcases ih is' d h with ⟨i2, hi2, hp2⟩
            exact ⟨i2, by simp [hi2], hp2⟩

/-! ### C5 -/

/-- C5.  For every pipeline state with well-formed track ids (all below
the tracker's next fresh id, which the monotone allocation maintains) and
every frame, each identity the tracker retires during that
`process_frame` call (reported via `get_disappeared_track_ids`, i.e. the
`disappeared` field of the updated tracker) has its smoothing state —
pose history, last known pose and hysteresis record — absent from the
Attention Classifier when the call returns: the same-frame purge of
`pipeline.py` lines 120-123 is complete and nothing later in the frame
(the smoothing stage touches only identities of current detections, whose
ids are never retired ids) resurrects it. -/
theorem process_frame_purges_retired (ps : PipelineState)
    (input : List (Box × Option (ℚ × ℚ))) (pid : Nat)
    (hw : ∀ t ∈ ps.tracker.tracks, t.id < ps.tracker.nextId)
    (hd : pid ∈ (process_frame ps input).1.tracker.disappeared) :
    alookup (process_frame ps input).1.hp.history pid = none
    ∧ alookup (process_frame ps input).1.hp.lastPose pid = none
    ∧ alookup (process_frame ps input).1.hp.hyst pid = none := by
  have hd' : pid ∈ (tracker_update ps.tracker
      ((pose_stage ps.hp input).map (fun d => d.bbox))).1.disappeared := hd
  have hclear := clear_fold_none pid _ ps.hp hd'
  have hids := tracker_ids_not_disappeared ps.tracker _ pid hw hd'
  have htracked : ∀ d ∈ zip_set_ids (pose_stage ps.hp input)
      (tracker_update ps.tracker
        ((pose_stage ps.hp input).map (fun d => d.bbox))).2,
      d.pid ≠ some pid := by
    intro d hdm heq
    rcases zip_set_ids_pid _ _ d hdm with ⟨i, hi, hp2⟩
    rw [hp2] at heq
    exact hids i hi (Option.some.inj heq)
  have hstage := smoothing_stage_lookups pid _ ((tracker_update ps.tracker
        ((pose_stage ps.hp input).map (fun d => d.bbox))).1.disappeared.foldl
      clear_history_for ps.hp) htracked
  exact ⟨hstage.1.trans hclear.1, hstage.2.1.trans hclear.2.1,
         hstage.2.2.trans hclear.2.2⟩

/-- C5, witness: a tracker whose only track (identity 4, one miss from the
threshold) sees an empty frame; identity 4 is retired and its smoothing
records (seeded in `c5hp`) are gone when `process_frame` returns. -/
theorem process_frame_purges_retired_witness :
    alookup (process_frame ⟨c5tracker, c5hp⟩ []).1.hp.history 4 = none
    ∧ alookup (process_frame ⟨c5tracker, c5hp⟩ []).1.hp.lastPose 4 = none
    ∧ alookup (process_frame ⟨c5tracker, c5hp⟩ []).1.hp.hyst 4 = none :=
  process_frame_purges_retired ⟨c5tracker, c5hp⟩ [] 4 (by decide) (by decide)

/-! ### Hysteresis lemmas (C6) -/

theorem hyst_step_same (k : Nat) (e : HystEntry) :
    hyst_step k e e.committed = (⟨e.committed, none⟩, e.committed) := by
  simp [hyst_step]

theorem hyst_step_new (k : Nat) (A B : Status) (h : B ≠ A) (hk : 2 ≤ k) :
    hyst_step k ⟨A, none⟩ B = (⟨A, some (B, 1)⟩, A) := by
  have hml : ¬ k ≤ 1 := by omega
  simp [hyst_step, h, hml]

theorem hyst_step_extend (k : Nat) (A B : Status) (n : Nat) (h : B ≠ A)
    (hn : n + 1 < k) :
    hyst_step k ⟨A, some (B, n)⟩ B = (⟨A, some (B, n + 1)⟩, A) := by
  have hml : ¬ k ≤ n + 1 := by omega
  simp [hyst_step, h, hml]

theorem hyst_step_commit (k : Nat) (A B : Status) (n : Nat) (h : B ≠ A)
    (hn : k ≤ n + 1) :
    hyst_step k ⟨A, some (B, n)⟩ B = (⟨B, none⟩, B) := by
  simp [hyst_step, h, hn]

theorem classify_at_entry (st : HeadPoseState) (y p : ℚ) (q : Nat)
    (e : HystEntry) (he : alookup st.hyst q = some e) :
    classify_attention st y p (some q)
      = ({ st with hyst := aset st.hyst q (hyst_step st.commitFrames e (raw_status st y p)).1 },
         (hyst_step st.commitFrames e (raw_status st y p)).2) := by
  simp [classify_attention, he]

theorem raw_status_congr (st1 st2 : HeadPoseState) (y p : ℚ)
    (hy : st1.yaw_threshold = st2.yaw_threshold)
    (hp : st1.pitch_threshold = st2.pitch_threshold) :
    raw_status st1 y p = raw_status st2 y p := by
  unfold raw_status
  rw [hy, hp]

theorem run_classify_cons (st : HeadPoseState) (q : Nat) (yp : ℚ × ℚ)
    (l : List (ℚ × ℚ)) :
    run_classify st q (yp :: l)
      = ((run_classify (classify_attention st yp.1 yp.2 (some q)).1 q l).1,
         (classify_attention st yp.1 yp.2 (some q)).2
           :: (run_classify (classify_attention st yp.1 yp.2 (some q)).1 q l).2) :=
  rfl

theorem run_classify_append (q : Nat) :
    ∀ (l1 l2 : List (ℚ × ℚ)) (st : HeadPoseState),
    run_classify st q (l1 ++ l2)
      = ((run_classify (run_classify st q l1).1 q l2).1,
         (run_classify st q l1).2
           ++ (run_classify (run_classify st q l1).1 q l2).2) := by
  intro l1
  induction l1 with
  | nil => intro l2 st; simp [run_classify]
  | cons yp rest ih =>
      intro l2 st
      rw [List.cons_append, run_classify_cons, run_classify_cons, ih]
      rfl

/-- While the raw band equals the committed band, every returned status is
the committed one; after at least one such frame any pending candidate is
dropped. -/
theorem run_hold (a : ℚ × ℚ) (A : Status) (q : Nat) :
    ∀ (m : Nat) (st : HeadPoseState) (pend : Option (Status × Nat)),
    raw_status st a.1 a.2 = A →
    alookup st.hyst q = some ⟨A, pend⟩ →
    (run_classify st q (List.replicate m a)).2 = List.replicate m A
    ∧ (run_classify st q (List.replicate m a)).1.yaw_threshold
        = st.yaw_threshold
    ∧ (run_classify st q (List.replicate m a)).1.pitch_threshold
        = st.pitch_threshold
    ∧ (run_classify st q (List.replicate m a)).1.commitFrames
        = st.commitFrames
    ∧ alookup (run_classify st q (List.replicate m a)).1.hyst q
        = some ⟨A, if m = 0 then pend else none⟩ := by
  intro m
  induction m with
  | zero =>
      intro st pend hr he
      exact ⟨rfl, rfl, rfl, rfl, by simpa [run_classify] using he⟩
  | succ n ih =>
      intro st pend hr he
      have hstep := classify_at_entry st a.1 a.2 q ⟨A, pend⟩ he
      rw [hr] at hstep
      rw [show hyst_step st.commitFrames ⟨A, pend⟩ A = (⟨A, none⟩, A) from
            hyst_step_same st.commitFrames ⟨A, pend⟩] at hstep
      have h1 : raw_status (classify_attention st a.1 a.2 (some q)).1 a.1 a.2
          = A := by
        rw [raw_status_congr _ st a.1 a.2 (classify_yaw_thr _ _ _ _)
              (classify_pitch_thr _ _ _ _)]
        exact hr
      have h2 : alookup (classify_attention st a.1 a.2 (some q)).1.hyst q
          = some ⟨A, none⟩ := by
        rw [hstep]
        exact alookup_aset_self _ _ _
      obtain ⟨o1, o2, o3, o4, o5⟩ :=
        ih (classify_attention st a.1 a.2 (some q)).1 none h1 h2
      have hrun : run_classify st q (List.replicate (n + 1) a)
          = ((run_classify (classify_attention st a.1 a.2 (some q)).1 q
                (List.replicate n a)).1,
             A :: (run_classify (classify_attention st a.1 a.2 (some q)).1 q
                (List.replicate n a)).2) := by
        rw [List.replicate_succ, run_classify_cons, hstep]
      refine ⟨?_, ?_, ?_, ?_, ?_⟩
      · rw [hrun]
        simp [o1, List.replicate_succ]
      · rw [hrun]
        exact o2.trans (by rw [hstep])
      · rw [hrun]
        exact o3.trans (by rw [hstep])
      · rw [hrun]
        exact o4.trans (by rw [hstep])
      · rw [hrun]
        simpa using o5

/-- With a pending candidate at streak `i` and `i + j` equal to the
hysteresis length, `j` more frames of the candidate band return the
committed band for the first `j - 1` of them and commit the candidate on
the last. -/
theorem run_commit (b : ℚ × ℚ) (A B : Status) (q : Nat) (hBA : B ≠ A) :
    ∀ (j : Nat) (st : HeadPoseState) (i : Nat),
    raw_status st b.1 b.2 = B →
    alookup st.hyst q = some ⟨A, some (B, i)⟩ →
    i + j = st.commitFrames → 1 ≤ j →
    (run_classify st q (List.replicate j b)).2
        = List.replicate (j - 1) A ++ [B]
    ∧ (run_classify st q (List.replicate j b)).1.yaw_threshold
        = st.yaw_threshold
    ∧ (run_classify st q (List.replicate j b)).1.pitch_threshold
        = st.pitch_threshold
    ∧ (run_classify st q (List.replicate j b)).1.commitFrames
        = st.commitFrames
    ∧ alookup (run_classify st q (List.replicate j b)).1.hyst q
        = some ⟨B, none⟩ := by
  intro j
  induction j with
  | zero => intro st i hr he hsum hj; exact absurd hj (by omega)
  | succ n ih =>
      intro st i hr he hsum hj
      have hstep := classify_at_entry st b.1 b.2 q ⟨A, some (B, i)⟩ he
      rw [hr] at hstep
      rcases Nat.eq_zero_or_pos n with hn0 | hpos
      · subst hn0
        rw [hyst_step_commit st.commitFrames A B i hBA (by omega)] at hstep
        have hrun : run_classify st q (List.replicate 1 b)
            = ((classify_attention st b.1 b.2 (some q)).1,
               [(classify_attention st b.1 b.2 (some q)).2]) := rfl
        refine ⟨?_, ?_, ?_, ?_, ?_⟩
        · rw [hrun, hstep]; rfl
        · rw [hrun, hstep]
        · rw [hrun, hstep]
        · rw [hrun, hstep]
        · rw [hrun, hstep]
          exact alookup_aset_self _ _ _
      · rw [hyst_step_extend st.commitFrames A B i hBA (by omega)] at hstep
        have h1 : raw_status (classify_attention st b.1 b.2 (some q)).1 b.1 b.2
            = B := by
          rw [raw_status_congr _ st b.1 b.2 (classify_yaw_thr _ _ _ _)
                (classify_pitch_thr _ _ _ _)]
          exact hr
        have h2 : alookup (classify_attention st b.1 b.2 (some q)).1.hyst q
            = some ⟨A, some (B, i + 1)⟩ := by
          rw [hstep]
          exact alookup_aset_self _ _ _
        have h3 : (i + 1) + n
            = (classify_attention st b.1 b.2 (some q)).1.commitFrames := by
          rw [classify_commitFrames]
          omega
        obtain ⟨o1, o2, o3, o4, o5⟩ :=
          ih (classify_attention st b.1 b.2 (some q)).1 (i + 1) h1 h2 h3 hpos
        have hrun : run_classify st q (List.replicate (n + 1) b)
            = ((run_classify (classify_attention st b.1 b.2 (some q)).1 q
                  (List.replicate n b)).1,
               A :: (run_classify (classify_attention st b.1 b.2 (some q)).1 q
                  (List.replicate n b)).2) := by
          rw [List.replicate_succ, run_classify_cons, hstep]
        have hrep : List.replicate n A = A :: List.replicate (n - 1) A := by
          cases n with
          | zero => omega
          | succ m => simp [List.replicate_succ]
        refine ⟨?_, ?_, ?_, ?_, ?_⟩
        · rw [hrun]
          simp only [o1, Nat.add_sub_cancel, hrep, List.cons_append]
        · rw [hrun]
          exact o2.trans (by rw [hstep])
        · rw [hrun]
          exact o3.trans (by rw [hstep])
        · rw [hrun]
          exact o4.trans (by rw [hstep])
        · rw [hrun]
          exact o5

theorem replicate_sandwich (m n : Nat) (A : Status) :
    List.replicate m A ++ A :: List.replicate n A
      = List.replicate (m + 1 + n) A := by
  rw [List.replicate_add, List.replicate_add, List.replicate_succ]
  simp

/-! ### C6 -/

/-- C6.  Hysteresis of `classify_attention` for an identity whose
committed band is A with no pending candidate, with hysteresis length
K ≥ 2, and angle pairs `a` (raw band A) and `b` (raw band B ≠ A):
(1) a single-frame flip to `b` surrounded by any number of `a`-frames — in
particular K-1 of them — returns the committed band A on every frame and
leaves the committed band A; (2) a flip sustained for K or more frames
returns A for the first K-1 frames, commits B on frame K, then keeps
returning B — until the commit the previously committed status is
returned. -/
theorem classify_attention_hysteresis (st : HeadPoseState) (q : Nat)
    (A B : Status) (a b : ℚ × ℚ) (m n extra : Nat)
    (hK : 2 ≤ st.commitFrames)
    (hra : raw_status st a.1 a.2 = A)
    (hrb : raw_status st b.1 b.2 = B)
    (hBA : B ≠ A)
    (he : alookup st.hyst q = some ⟨A, none⟩) :
    ((run_classify st q
          (List.replicate m a ++ [b] ++ List.replicate n a)).2
        = List.replicate (m + 1 + n) A
      ∧ (alookup (run_classify st q (List.replicate m a ++ [b]
            ++ List.replicate n a)).1.hyst q).map HystEntry.committed
          = some A)
    ∧ ((run_classify st q (List.replicate (st.commitFrames + extra) b)).2
        = List.replicate (st.commitFrames - 1) A
            ++ List.replicate (extra + 1) B
      ∧ alookup (run_classify st q
            (List.replicate (st.commitFrames + extra) b)).1.hyst q
          = some ⟨B, none⟩) := by
  constructor
  · -- part 1: the single flip
    obtain ⟨p1, p2, p3, p4, p5⟩ := run_hold a A q m st none hra he
    have p5' : alookup (run_classify st q (List.replicate m a)).1.hyst q
        = some ⟨A, none⟩ := by simpa using p5
    have hr1 : raw_status (run_classify st q (List.replicate m a)).1 b.1 b.2
        = B := by
      rw [raw_status_congr _ st b.1 b.2 p2 p3]
      exact hrb
    have hstep := classify_at_entry (run_classify st q (List.replicate m a)).1
      b.1 b.2 q ⟨A, none⟩ p5'
    rw [hr1] at hstep
    rw [hyst_step_new _ A B hBA (by rw [p4]; exact hK)] at hstep
    have hra1 : raw_status
        (classify_attention (run_classify st q (List.replicate m a)).1
          b.1 b.2 (some q)).1 a.1 a.2 = A := by
      rw [raw_status_congr _ (run_classify st q (List.replicate m a)).1 a.1 a.2
            (classify_yaw_thr _ _ _ _) (classify_pitch_thr _ _ _ _),
          raw_status_congr _ st a.1 a.2 p2 p3]
      exact hra
    have he1 : alookup
        (classify_attention (run_classify st q (List.replicate m a)).1
          b.1 b.2 (some q)).1.hyst q = some ⟨A, some (B, 1)⟩ := by
      rw [hstep]
      exact alookup_aset_self _ _ _
    obtain ⟨r1, r2, r3, r4, r5⟩ :=
      run_hold a A q n
        (classify_attention (run_classify st q (List.replicate m a)).1
          b.1 b.2 (some q)).1 (some (B, 1)) hra1 he1
    have hsplit : run_classify st q
        (List.replicate m a ++ [b] ++ List.replicate n a)
        = ((run_classify
              (classify_attention (run_classify st q (List.replicate m a)).1
                b.1 b.2 (some q)).1 q (List.replicate n a)).1,
           (run_classify st q (List.replicate m a)).2
             ++ A :: (run_classify
              (classify_attention (run_classify st q (List.replicate m a)).1
                b.1 b.2 (some q)).1 q (List.replicate n a)).2) := by
      rw [List.append_assoc,
          run_classify_append q (List.replicate m a)
            ([b] ++ List.replicate n a),
          List.singleton_append, run_classify_cons, hstep]
    constructor
    · rw [hsplit]
      simp only [p1, r1]
      exact replicate_sandwich m n A
    · rw [hsplit]
      rw [r5]
      cases n <;> simp
  · -- part 2: the sustained flip
    have hsplitK : List.replicate (st.commitFrames + extra) b
        = b :: (List.replicate (st.commitFrames - 1) b
            ++ List.replicate extra b) := by
      rw [← List.replicate_add]
      have : st.commitFrames + extra = (st.commitFrames - 1 + extra) + 1 := by
        omega
      rw [this, List.replicate_succ]
    have hstep := classify_at_entry st b.1 b.2 q ⟨A, none⟩ he
    rw [hrb] at hstep
    rw [hyst_step_new st.commitFrames A B hBA hK] at hstep
    have hra1 : raw_status
        (classify_attention st b.1 b.2 (some q)).1 b.1 b.2 = B := by
      rw [raw_status_congr _ st b.1 b.2 (classify_yaw_thr _ _ _ _)
            (classify_pitch_thr _ _ _ _)]
      exact hrb
    have he1 : alookup (classify_attention st b.1 b.2 (some q)).1.hyst q
        = some ⟨A, some (B, 1)⟩ := by
      rw [hstep]
      exact alookup_aset_self _ _ _
    have hsum : 1 + (st.commitFrames - 1)
        = (classify_attention st b.1 b.2 (some q)).1.commitFrames := by
      rw [classify_commitFrames]
      omega
    obtain ⟨c1, c2, c3, c4, c5⟩ :=
      run_commit b A B q hBA (st.commitFrames - 1)
        (classify_attention st b.1 b.2 (some q)).1 1 hra1 he1 hsum (by omega)
    have hrb2 : raw_status
        (run_classify (classify_attention st b.1 b.2 (some q)).1 q
          (List.replicate (st.commitFrames - 1) b)).1 b.1 b.2 = B := by
      rw [raw_status_congr _ (classify_attention st b.1 b.2 (some q)).1
            b.1 b.2 c2 c3]
      exact hra1
    obtain ⟨h1, _, _, _, h5⟩ :=
      run_hold b B q extra
        (run_classify (classify_attention st b.1 b.2 (some q)).1 q
          (List.replicate (st.commitFrames - 1) b)).1 none hrb2 c5
    have hsplit : run_classify st q
        (List.replicate (st.commitFrames + extra) b)
        = ((run_classify
              (run_classify (classify_attention st b.1 b.2 (some q)).1 q
                (List.replicate (st.commitFrames - 1) b)).1 q
              (List.replicate extra b)).1,
           A :: ((run_classify (classify_attention st b.1 b.2 (some q)).1 q
                (List.replicate (st.commitFrames - 1) b)).2
             ++ (run_classify
                  (run_classify (classify_attention st b.1 b.2 (some q)).1 q
                    (List.replicate (st.commitFrames - 1) b)).1 q
                  (List.replicate extra b)).2)) := by
      rw [hsplitK, run_classify_cons, hstep,
          run_classify_append q (List.replicate (st.commitFrames - 1) b)
            (List.replicate extra b)]
    constructor
    · rw [hsplit]
      simp only [c1, h1]
      have hrep : List.replicate (st.commitFrames - 1) A
          = A :: List.replicate (st.commitFrames - 1 - 1) A := by
        have : st.commitFrames - 1 = (st.commitFrames - 1 - 1) + 1 := by omega
        rw [this, List.replicate_succ]
        simp
      rw [hrep]
      simp [List.replicate_succ]
    · rw [hsplit]
      simpa using h5

/-- C6, witness: thresholds 25/20, hysteresis length 3, identity 7
committed green; a single yellow flip (yaw 30) between two green pairs on
each side stays green throughout, and five sustained yellow frames return
green twice, commit yellow on the third frame and stay yellow. -/
theorem classify_attention_hysteresis_witness :
    ((run_classify c6hp 7
          (List.replicate 2 ((0 : ℚ), (0 : ℚ)) ++ [((30 : ℚ), (0 : ℚ))]
            ++ List.replicate 2 ((0 : ℚ), (0 : ℚ)))).2
        = List.replicate 5 Status.green
      ∧ (alookup (run_classify c6hp 7
            (List.replicate 2 ((0 : ℚ), (0 : ℚ)) ++ [((30 : ℚ), (0 : ℚ))]
              ++ List.replicate 2 ((0 : ℚ), (0 : ℚ)))).1.hyst 7).map
          HystEntry.committed = some Status.green)
    ∧ ((run_classify c6hp 7
          (List.replicate (c6hp.commitFrames + 2) ((30 : ℚ), (0 : ℚ)))).2
        = List.replicate (c6hp.commitFrames - 1) Status.green
            ++ List.replicate 3 Status.yellow
      ∧ alookup (run_classify c6hp 7
            (List.replicate (c6hp.commitFrames + 2)
              ((30 : ℚ), (0 : ℚ)))).1.hyst 7
          = some ⟨Status.yellow, none⟩) :=
  classify_attention_hysteresis c6hp 7 Status.green Status.yellow
    ((0 : ℚ), (0 : ℚ)) ((30 : ℚ), (0 : ℚ)) 2 2 2
    (by decide) (by decide) (by decide) (by decide) (by decide)

/-! ### C8 -/

/-- C8, counterexample.  Identity 1's last known valid pose, genuinely
recorded by `smooth_pose`, is exactly (0, 0) — a perfectly frontal,
attending face.  On a frame where face detection fails for the still
tracked identity, the pipeline's guard (`pipeline.py` line 151,
`if last_yaw != 0.0 or last_pitch != 0.0`) cannot distinguish this pose
from the no-pose default: the detection is left with its
`"No face detected"` status instead of being classified from the carried
pose (which would give the green band). -/
theorem carry_forward_zero_pose_counterexample :
    alookup c8hp.lastPose 1 = some ((0 : ℚ), (0 : ℚ))
    ∧ (apply_smoothing c8hp c8det).2 = c8det
    ∧ c8det.status = Status.noFace
    ∧ raw_status c8hp 0 0 = Status.green
    ∧ Status.noFace ≠ Status.green := by
  refine ⟨?_, ?_, rfl, ?_, by decide⟩
  · norm_num [c8hp, hpInit, smooth_pose, alookup, aset]
  · norm_num [apply_smoothing, c8det, get_last_known_pose, c8hp, hpInit,
      smooth_pose, alookup, aset]
  · norm_num [raw_status, c8hp, hpInit, smooth_pose]

/-- C8, amended.  For a tracked identity on a frame with failed face
detection (no head vector), the pipeline carries the identity's last
known pose forward and classifies attention from it — preserving
continuity instead of snapping to not-attending — whenever that pose is
not the `(0, 0)` sentinel; a last known pose equal to `(0, 0)` (recorded
or merely the no-record default) is treated as absent and the detection
keeps its no-face status unchanged. -/
theorem carry_forward_last_pose (hp : HeadPoseState) (d : Det) (q : Nat)
    (hq : d.pid = some q) (hv : d.headVectorPresent = false) :
    ((get_last_known_pose hp q ≠ ((0 : ℚ), (0 : ℚ))) →
      (apply_smoothing hp d).2
        = { d with yaw := (get_last_known_pose hp q).1,
                   pitch := (get_last_known_pose hp q).2,
                   status := (classify_attention hp (get_last_known_pose hp q).1 (get_last_known_pose hp q).2 (some q)).2 }
      ∧ (apply_smoothing hp d).1
        = (classify_attention hp (get_last_known_pose hp q).1 (get_last_known_pose hp q).2 (some q)).1)
    ∧ (get_last_known_pose hp q = ((0 : ℚ), (0 : ℚ)) →
        apply_smoothing hp d = (hp, d)) := by
  constructor
  · intro hnz
    have hcond : (get_last_known_pose hp q).1 ≠ 0
        ∨ (get_last_known_pose hp q).2 ≠ 0 := by
      by_contra hc
      push_neg at hc
      exact hnz (Prod.ext_iff.mpr hc)
    simp [apply_smoothing, hq, hv, hcond]
  · intro hz
    have hcond : ¬((get_last_known_pose hp q).1 ≠ 0
        ∨ (get_last_known_pose hp q).2 ≠ 0) := by
      rw [hz]
      simp
    simp [apply_smoothing, hq, hv, hcond]

/-- C8, witness: identity 1's recorded last pose is (30, 0); on a frame
with failed face detection the detection's angles become (30, 0) and its
status the classification of that carried pose. -/
theorem carry_forward_last_pose_witness :
    (apply_smoothing c8hpNZ c8det).2
      = { c8det with yaw := (get_last_known_pose c8hpNZ 1).1,
                     pitch := (get_last_known_pose c8hpNZ 1).2,
                     status := (classify_attention c8hpNZ (get_last_known_pose c8hpNZ 1).1 (get_last_known_pose c8hpNZ 1).2 (some 1)).2 }
    ∧ (apply_smoothing c8hpNZ c8det).1
      = (classify_attention c8hpNZ (get_last_known_pose c8hpNZ 1).1 (get_last_known_pose c8hpNZ 1).2 (some 1)).1 :=
  (carry_forward_last_pose c8hpNZ c8det 1 rfl rfl).1
    (by norm_num [get_last_known_pose, c8hpNZ, hpInit, smooth_pose, alookup,
          aset, Prod.ext_iff])

end AttentionApp
